import Mathlib

/-!
Verification development for the German energy price data pipeline
(`src/data_processor.py`).  The pipeline has five parts: a locale number
parser (`parse_german_number`), a source loader plus column normalizer
(`clean_smard_df`), and a driver (`run_pipeline`) that merges the three
normalized tables on their timestamp index.

The embedding is shallow: Python floats are modelled as rationals (`ℚ`),
pandas cells as a tagged value type `Val` with an explicit missing marker,
a pandas DataFrame as a header list plus row-aligned value lists, and a
raised Python exception as the `Except.error` branch of `Except`.
-/

set_option maxRecDepth 4000

deriving instance DecidableEq for Except

/-- A pandas cell value: the missing marker (`NaN`/`None`/`NaT` all collapse
to `na` since `pd.isna` treats them alike), a numeric value (Python `int` and
`float` both become a rational), or a string. -/
inductive Val where
  | na : Val
  | num : ℚ → Val
  | str : String → Val
deriving DecidableEq

/-- A raised Python exception, as observed by the caller. -/
inductive PyErr where
  | keyError : String → PyErr
  | valueError : String → PyErr
  | attributeError : String → PyErr
deriving DecidableEq

/-! ### Character and digit utilities -/

/-- The character for decimal digit `d` (meaningful for `d < 10`). -/
def digitChar (d : ℕ) : Char := Char.ofNat (48 + d)

/-- Characters of a digit list. -/
def charsOfDigits (ds : List ℕ) : List Char := ds.map digitChar

/-- The natural number denoted by a digit list, most significant first. -/
def natOfDigits (ds : List ℕ) : ℕ := ds.foldl (fun a d => 10 * a + d) 0

/-- The fractional value denoted by a digit list read after the decimal
point: `fracOfDigits [5,6] = 0.56`. -/
def fracOfDigits (ds : List ℕ) : ℚ := ds.foldr (fun d a => ((d : ℚ) + a) / 10) 0

/-- Greedily read a leading run of decimal digits, returning their values
and the rest of the input. -/
def readDigits : List Char → List ℕ × List Char
  | [] => ([], [])
  | c :: t =>
    if c.isDigit then
      let p := readDigits t
      ((c.toNat - 48) :: p.1, p.2)
    else ([], c :: t)

/-- Strip leading and trailing whitespace from a character list (the effect
of Python `str.strip()` on the ASCII inputs we model). -/
def stripWS (l : List Char) : List Char :=
  ((l.dropWhile Char.isWhitespace).reverse.dropWhile Char.isWhitespace).reverse

/-! ### Python `float(str)` on finite decimal literals

`pyFloatVal` models CPython `float` applied to a string, restricted to
finite decimal literals: optional sign, digits with an optional decimal
point, and an optional exponent.  The special spellings `inf`/`nan` (whose
values are not rationals) and underscore digit grouping are outside the
modelled fragment; no input of any theorem below uses them. -/

/-- Apply a trailing exponent part: given the mantissa and the remaining
characters after it, succeed only when the rest is empty or a complete
exponent. -/
def expDigits (m : ℚ) (sgn : Int) (cs : List Char) : Option ℚ :=
  let p := readDigits cs
  if p.1.isEmpty || !p.2.isEmpty then none
  else some (if 0 ≤ sgn then m * 10 ^ natOfDigits p.1 else m / 10 ^ natOfDigits p.1)

/-- Consume an optional exponent suffix and require the end of input. -/
def applyExp (m : ℚ) : List Char → Option ℚ
  | [] => some m
  | c :: rest =>
    if c = 'e' ∨ c = 'E' then
      match rest with
      | [] => none
      | c2 :: r2 =>
        if c2 = '+' then expDigits m 1 r2
        else if c2 = '-' then expDigits m (-1) r2
        else expDigits m 1 (c2 :: r2)
    else none

/-- Parse an unsigned decimal literal: digits, optionally with a decimal
point (at least one digit overall), optionally followed by an exponent. -/
def pyFloatMag (cs : List Char) : Option ℚ :=
  let p := readDigits cs
  match p.2 with
  | '.' :: r2 =>
    let q := readDigits r2
    if p.1.isEmpty && q.1.isEmpty then none
    else applyExp ((natOfDigits p.1 : ℚ) + fracOfDigits q.1) q.2
  | _ => if p.1.isEmpty then none else applyExp (natOfDigits p.1) p.2

/-- Parse a signed decimal literal from stripped characters. -/
def pyFloatVal : List Char → Option ℚ
  | [] => pyFloatMag []
  | c :: rest =>
    if c = '+' then pyFloatMag rest
    else if c = '-' then (pyFloatMag rest).map Neg.neg
    else pyFloatMag (c :: rest)

/-- Python `float(s)` on a string: strip whitespace, then parse a signed
decimal literal; `none` models the raised `ValueError`. -/
def pyFloat (s : String) : Option ℚ := pyFloatVal (stripWS s.data)

/-! ### The locale number parser -/

/-- The separator substitution of `parse_german_number`:
`x.replace('.', '').replace(',', '.')` — every `.` deleted, then every `,`
turned into `.`. -/
def subGerman (s : String) : String :=
  String.mk ((s.data.filter (fun c => c ≠ '.')).map (fun c => if c = ',' then '.' else c))

/-- `parse_german_number` from `src/data_processor.py`: missing stays
missing, numeric values are returned as floats unchanged, strings go
through the separator substitution and `float`, with a failed parse caught
and turned into the missing marker. -/
def parse_german_number : Val → Val
  | .na => .na
  | .num q => .num q
  | .str s =>
    match pyFloat (subGerman s) with
    | some q => .num q
    | none => .na

/-! ### German locale formatting of digit strings

`germanStr groups frac` builds a German-locale numeral: the integer digits
grouped with `.` as thousands separator and, when `frac` is nonempty, a `,`
followed by the fractional digits — e.g. `germanStr [[1],[2,3,4]] [5,6]`
is `"1.234,56"` and `germanStr [[4,2]] []` is `"42"`. -/

/-- Join character groups with a `.` separator. -/
def dotJoin : List (List Char) → List Char
  | [] => []
  | [g] => g
  | g :: g2 :: gs => g ++ '.' :: dotJoin (g2 :: gs)

/-- Characters of a German-locale numeral. -/
def germanChars (groups : List (List ℕ)) (frac : List ℕ) : List Char :=
  dotJoin (groups.map charsOfDigits) ++
    (if frac.isEmpty then [] else ',' :: charsOfDigits frac)

/-- A German-locale numeral string. -/
def germanStr (groups : List (List ℕ)) (frac : List ℕ) : String :=
  String.mk (germanChars groups frac)

/-- The value denoted by a German-locale numeral: all integer digits read
in sequence (thousands separators deleted), plus the fractional part. -/
def germanVal (groups : List (List ℕ)) (frac : List ℕ) : ℚ :=
  (natOfDigits groups.flatten : ℚ) + fracOfDigits frac

/-! ### Lemmas about the digit-level parsers -/

lemma digitChar_facts (d : ℕ) (h : d < 10) :
    (digitChar d).isDigit = true ∧ (digitChar d).toNat - 48 = d ∧
    (digitChar d).isWhitespace = false ∧ digitChar d ≠ '.' ∧
    digitChar d ≠ ',' ∧ digitChar d ≠ '+' ∧ digitChar d ≠ '-' := by
  interval_cases d <;> exact ⟨by decide, by decide, by decide, by decide,
    by decide, by decide, by decide⟩

lemma readDigits_spec (ds : List ℕ) (h : ∀ d ∈ ds, d < 10) (r : List Char)
    (hr : ∀ c t, r = c :: t → c.isDigit = false) :
    readDigits (charsOfDigits ds ++ r) = (ds, r) := by
  induction ds with
  | nil =>
    simp only [charsOfDigits, List.map_nil, List.nil_append]
    match r with
    | [] => rfl
    | c :: t =>
      simp [readDigits, hr c t rfl]
  | cons d ds ih =>
    have hd := digitChar_facts d (h d (by simp))
    simp only [charsOfDigits, List.map_cons, List.cons_append, readDigits,
      hd.1, if_true]
    have := ih (fun x hx => h x (by simp [hx]))
    simp only [charsOfDigits] at this
    simp [this, hd.2.1]

lemma dropWhile_ws_eq_self (l : List Char)
    (h : ∀ c ∈ l, c.isWhitespace = false) :
    l.dropWhile Char.isWhitespace = l := by
  match l with
  | [] => rfl
  | c :: t => simp [List.dropWhile, h c (by simp)]

lemma stripWS_eq_self (l : List Char) (h : ∀ c ∈ l, c.isWhitespace = false) :
    stripWS l = l := by
  unfold stripWS
  rw [dropWhile_ws_eq_self l h, dropWhile_ws_eq_self l.reverse
    (fun c hc => h c (List.mem_reverse.mp hc)), List.reverse_reverse]

lemma filter_dotJoin :
    (ls : List (List Char)) → (∀ l ∈ ls, ∀ c ∈ l, ¬(c = '.')) →
    (dotJoin ls).filter (fun c => c ≠ '.') = ls.flatten
  | [], _ => rfl
  | [g], h => by
    simp only [dotJoin, List.flatten_cons, List.flatten_nil, List.append_nil]
    rw [List.filter_eq_self]
    intro a ha
    simpa using h g (by simp) a ha
  | g :: g2 :: gs, h => by
    simp only [dotJoin, List.filter_append, List.flatten_cons]
    rw [List.filter_eq_self.mpr (fun a ha => by simpa using h g (by simp) a ha)]
    have hdot : (('.' :: dotJoin (g2 :: gs)).filter (fun c => c ≠ '.')) =
        (dotJoin (g2 :: gs)).filter (fun c => c ≠ '.') := by
      simp [List.filter]
    rw [hdot, filter_dotJoin (g2 :: gs) (fun l hl => h l (by simp [hl]))]
    simp [List.flatten_cons]

lemma charsOfDigits_flatten (gs : List (List ℕ)) :
    charsOfDigits gs.flatten = (gs.map charsOfDigits).flatten := by
  unfold charsOfDigits
  exact List.map_flatten ..

lemma map_comma_eq_self (l : List Char) (h : ∀ c ∈ l, ¬(c = ',')) :
    l.map (fun c => if c = ',' then '.' else c) = l := by
  induction l with
  | nil => rfl
  | cons c t ih =>
    rw [List.map_cons, if_neg (h c (by simp)), ih (fun x hx => h x (by simp [hx]))]

lemma mem_charsOfDigits_not_comma (groups : List (List ℕ))
    (hg : ∀ g ∈ groups, ∀ d ∈ g, d < 10) :
    ∀ c ∈ charsOfDigits groups.flatten, ¬(c = ',') := by
  intro c hc
  obtain ⟨d, hd, rfl⟩ := List.mem_map.mp hc
  obtain ⟨g, hgmem, hdg⟩ := List.mem_flatten.mp hd
  exact (digitChar_facts d (hg g hgmem d hdg)).2.2.2.2.1

lemma subGerman_german (groups : List (List ℕ)) (frac : List ℕ)
    (hg : ∀ g ∈ groups, ∀ d ∈ g, d < 10) (hf : ∀ d ∈ frac, d < 10) :
    (subGerman (germanStr groups frac)).data =
      charsOfDigits groups.flatten ++
        (if frac.isEmpty then [] else '.' :: charsOfDigits frac) := by
  have hnodot : ∀ l ∈ groups.map charsOfDigits, ∀ c ∈ l, ¬(c = '.') := by
    intro l hl c hc
    obtain ⟨g, hgmem, rfl⟩ := List.mem_map.mp hl
    obtain ⟨d, hd, rfl⟩ := List.mem_map.mp hc
    exact (digitChar_facts d (hg g hgmem d hd)).2.2.2.1
  show (((germanChars groups frac).filter (fun c => c ≠ '.')).map
      (fun c => if c = ',' then '.' else c)) = _
  unfold germanChars
  rw [List.filter_append, filter_dotJoin _ hnodot, ← charsOfDigits_flatten,
    List.map_append, map_comma_eq_self _ (mem_charsOfDigits_not_comma groups hg)]
  rcases frac with _ | ⟨f, fs⟩
  · simp
  · have hfrac : (',' :: charsOfDigits (f :: fs)).filter (fun c => c ≠ '.') =
        ',' :: charsOfDigits (f :: fs) := by
      rw [List.filter_eq_self]
      intro a ha
      rcases List.mem_cons.mp ha with rfl | ha
      · decide
      · obtain ⟨d, hd, rfl⟩ := List.mem_map.mp ha
        simpa using (digitChar_facts d (hf d hd)).2.2.2.1
    simp only [List.isEmpty_cons, if_neg (by decide : ¬(false = true))]
    rw [hfrac]
    simp only [List.map_cons, if_pos rfl, List.cons.injEq, List.append_cancel_left_eq]
    exact ⟨rfl, map_comma_eq_self _ (fun c hc => by
      obtain ⟨d, hd, rfl⟩ := List.mem_map.mp hc
      exact (digitChar_facts d (hf d hd)).2.2.2.2.1)⟩

lemma pyFloatMag_digits (d : ℕ) (ds : List ℕ) (h : ∀ x ∈ d :: ds, x < 10) :
    pyFloatMag (charsOfDigits (d :: ds)) = some (natOfDigits (d :: ds)) := by
  have hrd : readDigits (charsOfDigits (d :: ds)) = (d :: ds, []) := by
    have := readDigits_spec (d :: ds) h [] (fun c t hct => nomatch hct)
    rwa [List.append_nil] at this
  unfold pyFloatMag
  simp only [hrd]
  simp [applyExp]

lemma pyFloatMag_digits_frac (d : ℕ) (ds fs : List ℕ)
    (h : ∀ x ∈ d :: ds, x < 10) (hf : ∀ x ∈ fs, x < 10) :
    pyFloatMag (charsOfDigits (d :: ds) ++ '.' :: charsOfDigits fs) =
      some ((natOfDigits (d :: ds) : ℚ) + fracOfDigits fs) := by
  have hrd := readDigits_spec (d :: ds) h ('.' :: charsOfDigits fs)
    (fun c t hct => by injection hct with h1 _; rw [← h1]; decide)
  have hrf : readDigits (charsOfDigits fs) = (fs, []) := by
    have := readDigits_spec fs hf [] (fun c t hct => nomatch hct)
    rwa [List.append_nil] at this
  unfold pyFloatMag
  simp only [hrd, hrf]
  simp [applyExp]

lemma pyFloatVal_cons (c : Char) (t : List Char)
    (h1 : ¬(c = '+')) (h2 : ¬(c = '-')) :
    pyFloatVal (c :: t) = pyFloatMag (c :: t) := by
  simp [pyFloatVal, h1, h2]

/-- C1: the locale number parser returns numeric values unchanged as
floats; on a German-locale formatted numeral (thousands `.` groups,
optional `,` decimal part) it returns the value obtained by deleting all
`.` characters and reading `,` as the decimal point; a missing input stays
missing; and any string whose substituted form fails to parse yields the
missing marker instead of an error. -/
theorem C1_parse_german_number :
    (∀ q : ℚ, parse_german_number (.num q) = .num q) ∧
    parse_german_number .na = .na ∧
    (∀ (groups : List (List ℕ)) (frac : List ℕ),
      groups ≠ [] → (∀ g ∈ groups, g ≠ []) →
      (∀ g ∈ groups, ∀ d ∈ g, d < 10) → (∀ d ∈ frac, d < 10) →
      parse_german_number (.str (germanStr groups frac)) =
        .num (germanVal groups frac)) ∧
    (∀ s : String, pyFloat (subGerman s) = none →
      parse_german_number (.str s) = .na) := by
  refine ⟨fun q => rfl, rfl, ?_, fun s hs => by simp [parse_german_number, hs]⟩
  intro groups frac hne hgne hg hf
  obtain ⟨g0, gs, rfl⟩ := List.exists_cons_of_ne_nil hne
  obtain ⟨d0, g0t, rfl⟩ := List.exists_cons_of_ne_nil (hgne g0 (by simp))
  have hall : ∀ x ∈ ((d0 :: g0t) :: gs).flatten, x < 10 := fun x hx => by
    obtain ⟨g, hgmem, hxg⟩ := List.mem_flatten.mp hx
    exact hg g hgmem x hxg
  have hflat : ((d0 :: g0t) :: gs).flatten = d0 :: (g0t ++ gs.flatten) := by
    simp
  have hsub := subGerman_german ((d0 :: g0t) :: gs) frac hg hf
  have hd0 := digitChar_facts d0 (hall d0 (by rw [hflat]; simp))
  have hws : ∀ c ∈ (subGerman (germanStr ((d0 :: g0t) :: gs) frac)).data,
      c.isWhitespace = false := by
    rw [hsub]
    intro c hc
    rcases List.mem_append.mp hc with hc | hc
    · obtain ⟨d, hd, rfl⟩ := List.mem_map.mp hc
      exact (digitChar_facts d (hall d hd)).2.2.1
    · rcases frac with _ | ⟨f, ft⟩
      · simp at hc
      · simp only [List.isEmpty_cons, if_neg (by decide : ¬(false = true))] at hc
        rcases List.mem_cons.mp hc with rfl | hc
        · decide
        · obtain ⟨d, hd, rfl⟩ := List.mem_map.mp hc
          exact (digitChar_facts d (hf d hd)).2.2.1
  have hpy : pyFloat (subGerman (germanStr ((d0 :: g0t) :: gs) frac)) =
      some (germanVal ((d0 :: g0t) :: gs) frac) := by
    unfold pyFloat
    rw [stripWS_eq_self _ hws, hsub, hflat]
    rcases frac with _ | ⟨f, ft⟩
    · rw [show (if ([] : List ℕ).isEmpty = true then ([] : List Char)
          else '.' :: charsOfDigits []) = [] from rfl, List.append_nil]
      have : charsOfDigits (d0 :: (g0t ++ gs.flatten)) =
          digitChar d0 :: charsOfDigits (g0t ++ gs.flatten) := rfl
      rw [this, pyFloatVal_cons _ _ hd0.2.2.2.2.2.1 hd0.2.2.2.2.2.2, ← this,
        pyFloatMag_digits d0 _ (fun x hx => hall x (by rw [hflat]; exact hx))]
      unfold germanVal
      rw [hflat]
      norm_num [fracOfDigits]
    · rw [show (if (f :: ft).isEmpty = true then ([] : List Char)
          else '.' :: charsOfDigits (f :: ft)) = '.' :: charsOfDigits (f :: ft) from rfl]
      have hshape : charsOfDigits (d0 :: (g0t ++ gs.flatten)) ++
          '.' :: charsOfDigits (f :: ft) =
          digitChar d0 :: (charsOfDigits (g0t ++ gs.flatten) ++
            '.' :: charsOfDigits (f :: ft)) := rfl
      rw [hshape, pyFloatVal_cons _ _ hd0.2.2.2.2.2.1 hd0.2.2.2.2.2.2, ← hshape,
        pyFloatMag_digits_frac d0 _ _ (fun x hx => hall x (by rw [hflat]; exact hx)) hf]
      unfold germanVal
      rw [hflat]
  simp [parse_german_number, hpy]

/-- Witness for C1: `"1.234,56"` parses to `1234.56`, `"42"` parses to
`42.0`, `"abc"` parses to the missing marker. -/
theorem C1_witness :
    parse_german_number (.str (germanStr [[1], [2, 3, 4]] [5, 6])) =
      .num (germanVal [[1], [2, 3, 4]] [5, 6]) ∧
    germanStr [[1], [2, 3, 4]] [5, 6] = "1.234,56" ∧
    germanVal [[1], [2, 3, 4]] [5, 6] = 123456 / 100 ∧
    parse_german_number (.str (germanStr [[4, 2]] [])) =
      .num (germanVal [[4, 2]] []) ∧
    germanStr [[4, 2]] [] = "42" ∧ germanVal [[4, 2]] [] = 42 ∧
    parse_german_number (.str "abc") = .na := by
  refine ⟨C1_parse_german_number.2.2.1 [[1], [2, 3, 4]] [5, 6] (by decide)
      (by decide) (by decide) (by decide),
    by decide, by norm_num [germanVal, natOfDigits, fracOfDigits],
    C1_parse_german_number.2.2.1 [[4, 2]] [] (by decide) (by decide)
      (by decide) (by decide),
    by decide, by norm_num [germanVal, natOfDigits, fracOfDigits],
    C1_parse_german_number.2.2.2 "abc" (by decide)⟩

/-- C10: on any string with no comma the substitution just deletes every
dot, so a plain decimal-point numeral like `"1.5"` is misread as `15.0`,
never parsed at face value as `1.5`. -/
theorem C10_dot_always_deleted :
    (∀ s : String, (∀ c ∈ s.data, ¬(c = ',')) →
      (subGerman s).data = s.data.filter (fun c => c ≠ '.')) ∧
    parse_german_number (.str "1.5") = .num 15 ∧
    parse_german_number (.str "1.5") ≠ .num (3 / 2) := by
  have h15 : parse_german_number (.str "1.5") = .num 15 := by
    simp [parse_german_number, pyFloat, subGerman, stripWS, pyFloatVal,
      pyFloatMag, readDigits, applyExp, natOfDigits, fracOfDigits]
  refine ⟨?_, h15, ?_⟩
  · intro s h
    show (List.map _ (s.data.filter _)) = _
    exact map_comma_eq_self _ (fun c hc => h c (List.mem_filter.mp hc).1)
  · intro h
    rw [h15] at h
    simp only [Val.num.injEq] at h
    norm_num at h

/-- Witness for C10: the no-comma hypothesis holds at `"1.5"`. -/
theorem C10_witness :
    (subGerman "1.5").data = "1.5".data.filter (fun c => c ≠ '.') :=
  C10_dot_always_deleted.1 "1.5" (by decide)

/-! ### Substring matching and lowercasing (Python `in`, `str.lower()`) -/

/-- `needle` is a prefix of `hay` (character lists). -/
def subAt : List Char → List Char → Bool
  | _, [] => true
  | [], _ :: _ => false
  | a :: as, b :: bs => (a == b) && subAt as bs

/-- `needle` occurs somewhere inside `hay`. -/
def subIn (needle : List Char) : List Char → Bool
  | [] => needle.isEmpty
  | a :: as => subAt (a :: as) needle || subIn needle as

/-- Python `needle in hay` for strings. -/
def containsSub (hay needle : String) : Bool := subIn needle.data hay.data

/-- Python `str.lower()` on the ASCII headers we model. -/
def lowerStr (s : String) : String := String.mk (s.data.map Char.toLower)

/-! ### Header canonicalization -/

/-- Generic header cleanup from `clean_smard_df`:
`col.split('[')[0].strip().replace(' ', '_')` — everything before the
first `[`, stripped of surrounding whitespace, spaces to underscores. -/
def genericClean (col : String) : String :=
  String.mk ((stripWS (col.data.takeWhile (fun c => c ≠ '['))).map
    (fun c => if c = ' ' then '_' else c))

/-- The rename applied to each remaining header in `clean_smard_df`: a
header containing "residual" (case-insensitively) becomes `Residual_Load`,
else one containing "grid_load" or "grid load" becomes `Grid_Load`, else
the generic cleanup result. -/
def cleanName (col : String) : String :=
  if containsSub (lowerStr col) "residual" then "Residual_Load"
  else if containsSub (lowerStr col) "grid_load" ||
      containsSub (lowerStr col) "grid load" then "Grid_Load"
  else genericClean col

/-! ### Timestamps -/

/-- A timestamp at minute resolution. -/
structure TS where
  year : ℕ
  month : ℕ
  day : ℕ
  hour : ℕ
  minute : ℕ
deriving DecidableEq

def isLeapYear (y : ℕ) : Bool := y % 4 = 0 && (y % 100 ≠ 0 || y % 400 = 0)

def daysInMonth (y m : ℕ) : ℕ :=
  if m = 2 then (if isLeapYear y then 29 else 28)
  else if m = 4 ∨ m = 6 ∨ m = 9 ∨ m = 11 then 30
  else 31

/-- Three-letter month name, case-insensitive (strptime `%b`). -/
def monthNum (a b c : Char) : Option ℕ :=
  let k := String.mk [a.toLower, b.toLower, c.toLower]
  if k = "jan" then some 1 else if k = "feb" then some 2
  else if k = "mar" then some 3 else if k = "apr" then some 4
  else if k = "may" then some 5 else if k = "jun" then some 6
  else if k = "jul" then some 7 else if k = "aug" then some 8
  else if k = "sep" then some 9 else if k = "oct" then some 10
  else if k = "nov" then some 11 else if k = "dec" then some 12
  else none

/-- 12-hour clock to 24-hour clock (strptime `%I` with `%p`). -/
def hour24 (h12 : ℕ) (pm : Bool) : ℕ :=
  if pm then (if h12 = 12 then 12 else h12 + 12)
  else (if h12 = 12 then 0 else h12)

/-- AM/PM marker, case-insensitive. -/
def ampmOf (p1 p2 : Char) : Option Bool :=
  if p2.toLower = 'm' then
    if p1.toLower = 'a' then some false
    else if p1.toLower = 'p' then some true else none
  else none

/-- `pd.to_datetime(_, format='%b %d, %Y %I:%M %p')` on one string:
three-letter month name, " ", 1-2 digit day, ", ", 4-digit year, " ",
1-2 digit hour in 1..12, ":", 1-2 digit minute, " ", AM/PM; the whole
string must match and the day must exist in the month.  `none` is the
value coerced to `NaT` under `errors='coerce'`. -/
def parseStartDate (s : String) : Option TS :=
  match s.data with
  | a :: b :: c :: ' ' :: rest =>
    match monthNum a b c with
    | none => none
    | some mo =>
      let pd := readDigits rest
      if pd.1.length = 0 ∨ 2 < pd.1.length then none
      else
        let day := natOfDigits pd.1
        match pd.2 with
        | ',' :: ' ' :: y1 :: y2 :: y3 :: y4 :: ' ' :: r3 =>
          if y1.isDigit && y2.isDigit && y3.isDigit && y4.isDigit then
            let yr := natOfDigits [y1.toNat - 48, y2.toNat - 48,
              y3.toNat - 48, y4.toNat - 48]
            let ph := readDigits r3
            if ph.1.length = 0 ∨ 2 < ph.1.length then none
            else
              let h12 := natOfDigits ph.1
              match ph.2 with
              | ':' :: r5 =>
                let pmin := readDigits r5
                if pmin.1.length = 0 ∨ 2 < pmin.1.length then none
                else
                  let mi := natOfDigits pmin.1
                  match pmin.2 with
                  | [' ', p1, p2] =>
                    match ampmOf p1 p2 with
                    | none => none
                    | some pm =>
                      if 1 ≤ day ∧ day ≤ daysInMonth yr mo ∧ 1 ≤ h12 ∧
                          h12 ≤ 12 ∧ mi ≤ 59 then
                        some ⟨yr, mo, day, hour24 h12 pm, mi⟩
                      else none
                  | _ => none
              | _ => none
          else none
        | _ => none
  | _ => none

/-- `pd.to_datetime` without a format on one string, restricted to the ISO
fragment `YYYY-MM-DD` optionally followed by ` HH:MM` (or `THH:MM`):
enough to show well-formed ISO strings parse, while strings outside any
date format (the only ones any theorem below uses on the failing side,
e.g. `"garbage"`) are unparseable, which makes pandas raise. -/
def parseFlexible (s : String) : Option TS :=
  match s.data with
  | y1 :: y2 :: y3 :: y4 :: '-' :: m1 :: m2 :: '-' :: d1 :: d2 :: rest =>
    if y1.isDigit && y2.isDigit && y3.isDigit && y4.isDigit && m1.isDigit &&
        m2.isDigit && d1.isDigit && d2.isDigit then
      let yr := natOfDigits [y1.toNat - 48, y2.toNat - 48, y3.toNat - 48,
        y4.toNat - 48]
      let mo := natOfDigits [m1.toNat - 48, m2.toNat - 48]
      let dy := natOfDigits [d1.toNat - 48, d2.toNat - 48]
      if 1 ≤ mo ∧ mo ≤ 12 ∧ 1 ≤ dy ∧ dy ≤ daysInMonth yr mo then
        match rest with
        | [] => some ⟨yr, mo, dy, 0, 0⟩
        | [sep, h1, h2, ':', n1, n2] =>
          if (sep = ' ' ∨ sep = 'T') ∧
              (h1.isDigit && h2.isDigit && n1.isDigit && n2.isDigit) = true then
            let hh := natOfDigits [h1.toNat - 48, h2.toNat - 48]
            let nn := natOfDigits [n1.toNat - 48, n2.toNat - 48]
            if hh ≤ 23 ∧ nn ≤ 59 then some ⟨yr, mo, dy, hh, nn⟩ else none
          else none
        | _ => none
      else none
    else none
  | _ => none

/-! ### Tables -/

/-- A loaded CSV as `pd.read_csv` returns it: headers plus rows aligned
with them. -/
structure RawDF where
  headers : List String
  rows : List (List Val)
deriving DecidableEq

/-- The outcome of the `pd.read_csv` call inside `clean_smard_df`: the
raised exception's message (caught there) or the loaded frame. -/
inductive LoadResult where
  | failure : String → LoadResult
  | table : RawDF → LoadResult
deriving DecidableEq

/-- A normalized table: canonical column names and rows keyed by the
parsed timestamp (the index after `set_index('timestamp')`). -/
structure NTable where
  colNames : List String
  rows : List (TS × List Val)
deriving DecidableEq

/-- Value of column `h` in a row (first occurrence of the header). -/
def cellAt (hs : List String) (h : String) (r : List Val) : Val :=
  match hs.findIdx? (fun x => x == h) with
  | some i => r.getD i .na
  | none => .na

/-- Headers surviving the date-column drop: any header whose lowercase
form contains "date" or "timestamp" is removed (the parsed timestamp has
become the index). -/
def keptHeaders (hs : List String) : List String :=
  hs.filter (fun h =>
    !(containsSub (lowerStr h) "date" || containsSub (lowerStr h) "timestamp"))

/-- Projection of a raw row onto the kept headers. -/
def projRow (hs : List String) (r : List Val) : List Val :=
  (keptHeaders hs).map (fun h => cellAt hs h r)

/-- Row timestamp in the `'Start date'` branch (`errors='coerce'`: a
non-string or unparseable cell coerces to `NaT`). -/
def startTs (hs : List String) (r : List Val) : Option TS :=
  match cellAt hs "Start date" r with
  | .str s => parseStartDate s
  | _ => none

/-- Row timestamp in the `'timestamp'` branch (`pd.to_datetime` with the
default `errors='raise'`): missing stays `NaT` and is dropped later, a
string outside the parseable fragment raises.  A numeric epoch timestamp
is outside the modelled fragment and treated as raising; no theorem below
feeds a numeric cell to this branch. -/
def flexTs (hs : List String) (r : List Val) : Except PyErr (Option TS) :=
  match cellAt hs "timestamp" r with
  | .na => .ok none
  | .str s =>
    match parseFlexible s with
    | some t => .ok (some t)
    | none => .error (.valueError "could not parse timestamp")
  | .num _ => .error (.valueError "unmodelled numeric timestamp")

/-- Per-row timestamps in the raise-on-failure branch. -/
def flexCol (hs : List String) : List (List Val) → Except PyErr (List (Option TS))
  | [] => .ok []
  | r :: rs =>
    match flexTs hs r, flexCol hs rs with
    | .error e, _ => .error e
    | .ok _, .error e => .error e
    | .ok t, .ok ts => .ok (t :: ts)

/-- Pair rows with their optional timestamps, drop the `NaT` rows
(`dropna(subset=['timestamp'])`), project onto the kept headers and apply
the locale parser to every kept cell.  The code converts only
object-dtype columns, but on the remaining (all-numeric-or-missing)
columns the locale parser is the identity, so applying it everywhere is
observationally the same. -/
def buildRows (hs : List String) (rows : List (List Val))
    (ts : List (Option TS)) : List (TS × List Val) :=
  (List.zip ts rows).filterMap (fun p =>
    p.1.map (fun t => (t, (projRow hs p.2).map parse_german_number)))

/-- The body of `clean_smard_df` after a successful `read_csv`.  The
branch on the timestamp-bearing column follows the source; when neither
`'Start date'` nor `'timestamp'` exists, the `else: pass` falls through
to `df.dropna(subset=['timestamp'])`, which raises a `KeyError`.
Duplicate canonical names after the rename loop leave duplicate column
labels, so the conversion loop's `df[col].dtype` hits a two-column slice
and raises an `AttributeError`; hence the `Nodup` check. -/
def cleanTable (df : RawDF) : Except PyErr NTable :=
  let names := (keptHeaders df.headers).map cleanName
  if "Start date" ∈ df.headers then
    if names.Nodup then
      .ok ⟨names, buildRows df.headers df.rows (df.rows.map (startTs df.headers))⟩
    else .error (.attributeError "dtype on duplicate column labels")
  else if "timestamp" ∈ df.headers then
    match flexCol df.headers df.rows with
    | .error e => .error e
    | .ok ts =>
      if names.Nodup then
        .ok ⟨names, buildRows df.headers df.rows ts⟩
      else .error (.attributeError "dtype on duplicate column labels")
  else .error (.keyError "timestamp")

/-- `clean_smard_df`: console messages plus result.  `Except.error` is an
exception escaping the function — only the `read_csv` call sits inside a
`try`, and a caught read failure prints and returns `None`. -/
def clean_smard_df (path : String) (r : LoadResult) :
    List String × Except PyErr (Option NTable) :=
  match r with
  | .failure msg =>
    (["Processing " ++ path ++ "...",
      "Error reading " ++ path ++ ": " ++ msg], .ok none)
  | .table df =>
    (["Processing " ++ path ++ "..."],
      match cleanTable df with
      | .error e => .error e
      | .ok t => .ok (some t))

/-! ### The pipeline driver -/

/-- The column test of the price special case in `run_pipeline`:
`"Deutschland" in col or "€" in col` (case-sensitive, on the
post-normalization column name). -/
def priceMatch (c : String) : Bool :=
  containsSub c "Deutschland" || containsSub c "€"

/-- The price-table special case in `run_pipeline`: rename the first
column whose (post-normalization) name contains "Deutschland" or "€" to
`Day_Ahead_Price`; with no such column and exactly one column, rename
that sole column unconditionally. -/
def priceRename (t : NTable) : NTable :=
  match t.colNames.findIdx? priceMatch with
  | some i => ⟨t.colNames.set i "Day_Ahead_Price", t.rows⟩
  | none =>
    if t.colNames.length = 1 then ⟨["Day_Ahead_Price"], t.rows⟩ else t

/-- `master_df.join(other, how='inner')`: joining on the index raises a
`ValueError` when column names overlap (no suffixes are passed);
otherwise rows pair up on equal index values and the column lists
concatenate. -/
def joinInner (a b : NTable) : Except PyErr NTable :=
  if a.colNames.any (fun n => b.colNames.contains n) then
    .error (.valueError "columns overlap but no suffix specified")
  else
    .ok ⟨a.colNames ++ b.colNames,
      a.rows.flatMap (fun ra =>
        (b.rows.filter (fun rb => rb.1 == ra.1)).map
          (fun rb => (ra.1, ra.2 ++ rb.2)))⟩

/-- The merge loop of `run_pipeline`: fold the later tables into the
first with inner joins; an exception aborts the loop. -/
def mergeAll (d : NTable) : List NTable → Except PyErr NTable
  | [] => .ok d
  | b :: ds =>
    match joinInner d b with
    | .error e => .error e
    | .ok j => mergeAll j ds

/-- Sort key realizing the chronological order on timestamps. -/
def tsKey (t : TS) : ℕ :=
  (((t.year * 13 + t.month) * 32 + t.day) * 24 + t.hour) * 60 + t.minute

def insertRow (r : TS × List Val) :
    List (TS × List Val) → List (TS × List Val)
  | [] => [r]
  | x :: xs => if tsKey r.1 < tsKey x.1 then r :: x :: xs else x :: insertRow r xs

/-- Stable insertion sort of the merged rows by ascending timestamp
(`master_df.sort_index()`). -/
def sortRows : List (TS × List Val) → List (TS × List Val)
  | [] => []
  | r :: rs => insertRow r (sortRows rs)

def sortTable (t : NTable) : NTable := ⟨t.colNames, sortRows t.rows⟩

def genPath : String := "../data/generation.csv"

def consPath : String := "../data/consumption.csv"

def pricesPath : String := "../data/prices.csv"

/-- The tail of `run_pipeline` once the collected table list is known:
empty means the "No data processed." early return, otherwise inner-join
all tables into the first, sort the result and report the save. -/
def mergePhase (dfs : List NTable) : List String × Except PyErr (Option NTable) :=
  match dfs with
  | [] => (["No data processed."], .ok none)
  | d :: ds =>
    match mergeAll d ds with
    | .error e => (["Merging datasets..."], .error e)
    | .ok m =>
      (["Merging datasets...",
        "Saved master dataset to ../data/energy_dataset_master.csv"],
        .ok (some (sortTable m)))

/-- `run_pipeline`: process the three sources in order, collect the
successfully normalized tables (`None` results skipped), apply the price
rename to the prices table, inner-join and sort.  First component:
console output until return or exception.  Second: `ok (some master)`
when the output file is written, `ok none` for the clean
"No data processed." early return, `error` for an escaped exception.
Writing the CSV and the final `info` report are not modelled. -/
def run_pipeline (gen cons prices : LoadResult) :
    List String × Except PyErr (Option NTable) :=
  let pg := clean_smard_df genPath gen
  match pg.2 with
  | .error e => (pg.1, .error e)
  | .ok og =>
    let pc := clean_smard_df consPath cons
    match pc.2 with
    | .error e => (pg.1 ++ pc.1, .error e)
    | .ok oc =>
      let pp := clean_smard_df pricesPath prices
      match pp.2 with
      | .error e => (pg.1 ++ pc.1 ++ pp.1, .error e)
      | .ok op =>
        let mp := mergePhase (og.toList ++ oc.toList ++ (op.map priceRename).toList)
        (pg.1 ++ pc.1 ++ pp.1 ++ mp.1, mp.2)

/-- A timestamp occurs among a table's row keys. -/
def hasKey (t : NTable) (ts : TS) : Bool := t.rows.any (fun r => r.1 == ts)

/-! ### C6: header canonicalization -/

/-- Spec-side reformulation of §4.3 step 4: a priority-ordered list of
(raw-header predicate, canonical name) rules, evaluated top to bottom with
first match winning — a header containing "residual" (case-insensitively)
maps to `Residual_Load`, one containing "grid load" or "grid_load" maps to
`Grid_Load`. -/
def specRules : List ((String → Bool) × String) :=
  [(fun h => containsSub (lowerStr h) "residual", "Residual_Load"),
   (fun h => containsSub (lowerStr h) "grid load" ||
      containsSub (lowerStr h) "grid_load", "Grid_Load")]

/-- Spec-side reformulation: the first matching rule's canonical name,
with unmatched headers falling back to the generic cleanup (strip the
trailing bracketed unit annotation, trim whitespace, replace internal
spaces with underscores). -/
def specCanonicalName (h : String) : String :=
  match specRules.find? (fun r => r.1 h) with
  | some r => r.2
  | none => genericClean h

/-- C6: for every raw header, the rename the Column Normalizer performs
equals the spec's first-match rule list over case-insensitive substring
matches with the generic cleanup as fallback; sample evaluations show the
bracket stripping, trimming, underscoring and both semantic overrides. -/
theorem C6_header_canonicalization :
    (∀ h : String, cleanName h = specCanonicalName h) ∧
    cleanName "Total [MWh] Calculated resolutions" = "Total" ∧
    cleanName "Residual load [MWh] Calculated resolutions" = "Residual_Load" ∧
    cleanName "Grid load [MWh] Calculated resolutions" = "Grid_Load" ∧
    cleanName "GRID_LOAD extra" = "Grid_Load" ∧
    cleanName " a b [x] y" = "a_b" := by
  refine ⟨?_, by decide, by decide, by decide, by decide, by decide⟩
  intro h
  unfold cleanName specCanonicalName specRules
  cases h1 : containsSub (lowerStr h) "residual" <;>
    cases h2 : containsSub (lowerStr h) "grid_load" <;>
      cases h3 : containsSub (lowerStr h) "grid load" <;>
        simp [List.find?, h1, h2, h3]

/-! ### C3: missing timestamp column -/

/-- Counterexample to C3 as stated: a table that loads fine but has
neither a `'Start date'` nor a `'timestamp'` column makes the normalizer
raise a `KeyError` (the `else: pass` falls into
`df.dropna(subset=['timestamp'])`), instead of returning an empty table. -/
theorem C3_counterexample :
    cleanTable ⟨["foo"], [[.na]]⟩ = .error (.keyError "timestamp") ∧
    (clean_smard_df pricesPath (.table ⟨["foo"], [[.na]]⟩)).2 =
      .error (.keyError "timestamp") := by
  exact ⟨rfl, rfl⟩

/-- C3 amended: for every loaded table with neither a `'Start date'` nor a
`'timestamp'` column, the normalizer raises a `KeyError` — the driver
never receives an empty table from such a source. -/
theorem C3_amended (df : RawDF) (h1 : "Start date" ∉ df.headers)
    (h2 : "timestamp" ∉ df.headers) :
    cleanTable df = .error (.keyError "timestamp") := by
  unfold cleanTable
  rw [if_neg h1, if_neg h2]

/-- Witness for the amended C3. -/
theorem C3_amended_witness :
    cleanTable ⟨["price"], [[.str "x"], [.na]]⟩ = .error (.keyError "timestamp") :=
  C3_amended ⟨["price"], [[.str "x"], [.na]]⟩ (by decide) (by decide)

/-! ### C7: timestamp parsing and row filtering -/

lemma buildRows_keys (hs : List String) (f : List Val → Option TS) :
    ∀ rows : List (List Val),
      (buildRows hs rows (rows.map f)).map Prod.fst = rows.filterMap f := by
  intro rows
  induction rows with
  | nil => rfl
  | cons r rs ih =>
    simp only [buildRows, List.map_cons, List.zip_cons_cons, List.filterMap_cons] at ih ⊢
    cases hf : f r with
    | none => simpa [hf] using ih
    | some t => simpa [hf] using ih

/-- Counterexample to C7 as stated: in the `'timestamp'`-column branch an
unparseable string is not merely excluded — `pd.to_datetime` (default
`errors='raise'`) raises, so no normalized table is produced at all. -/
theorem C7_counterexample :
    cleanTable ⟨["timestamp"], [[.str "garbage"]]⟩ =
      .error (.valueError "could not parse timestamp") := by
  exact rfl

/-- C7 amended: in the `'Start date'` branch every row whose start-date
cell fails the fixed format `%b %d, %Y %I:%M %p` is excluded and the
surviving rows are keyed by their parsed instants, in order; the
round-trip example `"Jan 1, 2021 12:00 AM"` yields exactly one row keyed
at 2021-01-01 00:00 with only the `Total` column left (no residual
date/time columns).  In the `'timestamp'`-column branch an unparseable
string raises instead. -/
theorem C7_amended :
    (∀ (df : RawDF) (t : NTable), "Start date" ∈ df.headers →
      cleanTable df = .ok t →
      t.rows.map Prod.fst = df.rows.filterMap (startTs df.headers)) ∧
    parseStartDate "Jan 1, 2021 12:00 AM" = some ⟨2021, 1, 1, 0, 0⟩ ∧
    cleanTable ⟨["Start date", "End date", "Total [MWh] Calculated resolutions"],
        [[.str "Jan 1, 2021 12:00 AM", .str "Jan 1, 2021 1:00 AM", .str "1.234,5"]]⟩ =
      .ok ⟨["Total"], [(⟨2021, 1, 1, 0, 0⟩, [.num (12345 / 10)])]⟩ := by
  refine ⟨?_, rfl, ?_⟩
  · intro df t hsd hok
    unfold cleanTable at hok
    rw [if_pos hsd] at hok
    by_cases hnd : ((keptHeaders df.headers).map cleanName).Nodup
    · rw [if_pos hnd] at hok
      injection hok with hok
      rw [← hok]
      exact buildRows_keys df.headers (startTs df.headers) df.rows
    · rw [if_neg hnd] at hok
      cases hok
  · have hcell : parse_german_number (.str "1.234,5") = .num (12345 / 10) := by
      simp [parse_german_number, pyFloat, subGerman, stripWS, pyFloatVal,
        pyFloatMag, readDigits, applyExp, natOfDigits, fracOfDigits]
      norm_num
    have hshape : cleanTable ⟨["Start date", "End date",
        "Total [MWh] Calculated resolutions"],
        [[.str "Jan 1, 2021 12:00 AM", .str "Jan 1, 2021 1:00 AM", .str "1.234,5"]]⟩ =
        .ok ⟨["Total"], [(⟨2021, 1, 1, 0, 0⟩,
          [parse_german_number (.str "1.234,5")])]⟩ := rfl
    rw [hcell] at hshape
    exact hshape

/-- Witness for the amended C7: the row-filtering hypothesis holds at a
two-row table, one parseable and one not. -/
theorem C7_amended_witness :
    (cleanTable ⟨["Start date", "v"], [[.str "Jan 1, 2021 12:00 AM", .na],
        [.str "not a date", .na]]⟩).map NTable.rows =
      .ok [(⟨2021, 1, 1, 0, 0⟩, [.na])] ∧
    (⟨["v"], [(⟨2021, 1, 1, 0, 0⟩, [.na])]⟩ : NTable).rows.map Prod.fst =
      [[.str "Jan 1, 2021 12:00 AM", .na], [.str "not a date", .na]].filterMap
        (startTs ["Start date", "v"]) := by
  refine ⟨rfl, ?_⟩
  exact C7_amended.1 ⟨["Start date", "v"], [[.str "Jan 1, 2021 12:00 AM", .na],
    [.str "not a date", .na]]⟩ ⟨["v"], [(⟨2021, 1, 1, 0, 0⟩, [.na])]⟩
    (by decide) rfl

/-! ### C8: the price-column rename -/

/-- Counterexample to C8 as stated: the driver's test runs on the
post-normalization column names, not the raw headers.  For a raw header
`"Preis [€/MWh] res"` the euro sign sits inside the stripped bracket
annotation, so the normalized name `"Preis"` matches nothing and — the
table having two columns — no column is renamed to `Day_Ahead_Price`,
although the raw header does contain `"€"`. -/
theorem C8_counterexample :
    containsSub "Preis [€/MWh] res" "€" = true ∧
    cleanTable ⟨["Start date", "Preis [€/MWh] res", "Zweite Spalte"],
        [[.str "Jan 1, 2021 12:00 AM", .na, .na]]⟩ =
      .ok ⟨["Preis", "Zweite_Spalte"], [(⟨2021, 1, 1, 0, 0⟩, [.na, .na])]⟩ ∧
    priceRename ⟨["Preis", "Zweite_Spalte"], [(⟨2021, 1, 1, 0, 0⟩, [.na, .na])]⟩ =
      ⟨["Preis", "Zweite_Spalte"], [(⟨2021, 1, 1, 0, 0⟩, [.na, .na])]⟩ ∧
    "Day_Ahead_Price" ∉ (["Preis", "Zweite_Spalte"] : List String) := by
  exact ⟨rfl, rfl, rfl, by decide⟩

/-- C8 amended: the rename applies to post-normalization column names —
the first column whose name contains "Deutschland" or "€" becomes
`Day_Ahead_Price` (the rest unchanged); with no matching name and exactly
one column, that sole column is renamed unconditionally; with no matching
name and any other column count the table is left unchanged. -/
theorem C8_amended :
    (∀ (t : NTable) (i : ℕ), t.colNames.findIdx? priceMatch = some i →
      (priceRename t).colNames = t.colNames.set i "Day_Ahead_Price" ∧
      (priceRename t).rows = t.rows) ∧
    (∀ t : NTable, t.colNames.findIdx? priceMatch = none →
      t.colNames.length = 1 →
      (priceRename t).colNames = ["Day_Ahead_Price"] ∧
      (priceRename t).rows = t.rows) ∧
    (∀ t : NTable, t.colNames.findIdx? priceMatch = none →
      t.colNames.length ≠ 1 → priceRename t = t) := by
  refine ⟨fun t i h => ?_, fun t h h1 => ?_, fun t h h1 => ?_⟩
  · unfold priceRename
    rw [h]
    exact ⟨rfl, rfl⟩
  · unfold priceRename
    rw [h, if_pos h1]
    exact ⟨rfl, rfl⟩
  · unfold priceRename
    rw [h, if_neg h1]

/-- Witness for the amended C8: a matching second column is renamed in
place, and a sole unmatched column is renamed unconditionally. -/
theorem C8_amended_witness :
    ((priceRename ⟨["X", "Deutschland_Luxemburg"], []⟩).colNames =
      (["X", "Deutschland_Luxemburg"] : List String).set 1 "Day_Ahead_Price" ∧
     (priceRename ⟨["X", "Deutschland_Luxemburg"], []⟩).rows = ([] : List (TS × List Val))) ∧
    ((priceRename ⟨["Preis"], []⟩).colNames = ["Day_Ahead_Price"] ∧
     (priceRename ⟨["Preis"], []⟩).rows = ([] : List (TS × List Val))) :=
  ⟨C8_amended.1 ⟨["X", "Deutschland_Luxemburg"], []⟩ 1 (by decide),
   C8_amended.2.1 ⟨["Preis"], []⟩ (by decide) (by decide)⟩

/-! ### C2 and C4: the inner-join merge -/

lemma hasKey_iff (t : NTable) (ts : TS) :
    hasKey t ts = true ↔ ∃ r ∈ t.rows, r.1 = ts := by
  simp [hasKey, List.any_eq_true, beq_iff_eq]

lemma joinInner_ok (a b j : NTable) (h : joinInner a b = .ok j) :
    j.colNames = a.colNames ++ b.colNames ∧
    ∀ ts, (hasKey j ts = true ↔ hasKey a ts = true ∧ hasKey b ts = true) := by
  unfold joinInner at h
  split at h
  · cases h
  · injection h with h
    subst h
    refine ⟨rfl, fun ts => ?_⟩
    simp only [hasKey_iff]
    constructor
    · rintro ⟨r, hr, hts⟩
      obtain ⟨ra, hra, hr⟩ := List.mem_flatMap.mp hr
      obtain ⟨rb, hrb, rfl⟩ := List.mem_map.mp hr
      obtain ⟨hrb, hbeq⟩ := List.mem_filter.mp hrb
      exact ⟨⟨ra, hra, hts⟩, ⟨rb, hrb, (beq_iff_eq.mp hbeq).trans hts⟩⟩
    · rintro ⟨⟨ra, hra, hts⟩, ⟨rb, hrb, hts2⟩⟩
      refine ⟨(ra.1, ra.2 ++ rb.2), List.mem_flatMap.mpr ⟨ra, hra, ?_⟩, hts⟩
      exact List.mem_map.mpr ⟨rb, List.mem_filter.mpr
        ⟨hrb, beq_iff_eq.mpr (hts2.trans hts.symm)⟩, rfl⟩

/-- C2: whenever the merge loop produces a table from a nonempty list of
normalized tables, that table's key set is exactly the intersection of
the inputs' key sets and its column list is the concatenation (hence,
names being distinct, the union) of the inputs' column lists, in input
order. -/
theorem C2_merge_intersection (d : NTable) (ds : List NTable) (m : NTable)
    (h : mergeAll d ds = .ok m) :
    (∀ ts : TS, hasKey m ts = true ↔
      (hasKey d ts = true ∧ ∀ x ∈ ds, hasKey x ts = true)) ∧
    m.colNames = d.colNames ++ (ds.map NTable.colNames).flatten := by
  induction ds generalizing d with
  | nil =>
    unfold mergeAll at h
    injection h with h
    subst h
    simp
  | cons b bs ih =>
    unfold mergeAll at h
    cases hj : joinInner d b with
    | error e => rw [hj] at h; cases h
    | ok j =>
      rw [hj] at h
      obtain ⟨hcols, hkeys⟩ := joinInner_ok d b j hj
      obtain ⟨ihk, ihc⟩ := ih j h
      constructor
      · intro ts
        rw [ihk ts, hkeys ts, List.forall_mem_cons]
        tauto
      · rw [ihc, hcols]
        simp

/-- Witness for C2: table A with keys 00:00, 01:00, 02:00 and table B with
keys 01:00, 02:00, 03:00 merge to exactly the keys 01:00 and 02:00, with
the key-set equivalence instantiated from the theorem at 01:00. -/
theorem C2_witness :
    mergeAll ⟨["A"], [(⟨2021, 1, 1, 0, 0⟩, [.na]), (⟨2021, 1, 1, 1, 0⟩, [.na]),
        (⟨2021, 1, 1, 2, 0⟩, [.na])]⟩
      [⟨["B"], [(⟨2021, 1, 1, 1, 0⟩, [.na]), (⟨2021, 1, 1, 2, 0⟩, [.na]),
        (⟨2021, 1, 1, 3, 0⟩, [.na])]⟩] =
      .ok ⟨["A", "B"], [(⟨2021, 1, 1, 1, 0⟩, [.na, .na]),
        (⟨2021, 1, 1, 2, 0⟩, [.na, .na])]⟩ ∧
    (hasKey ⟨["A", "B"], [(⟨2021, 1, 1, 1, 0⟩, [.na, .na]),
        (⟨2021, 1, 1, 2, 0⟩, [.na, .na])]⟩ ⟨2021, 1, 1, 1, 0⟩ = true ↔
      (hasKey ⟨["A"], [(⟨2021, 1, 1, 0, 0⟩, [.na]), (⟨2021, 1, 1, 1, 0⟩, [.na]),
          (⟨2021, 1, 1, 2, 0⟩, [.na])]⟩ ⟨2021, 1, 1, 1, 0⟩ = true ∧
        ∀ x ∈ [(⟨["B"], [(⟨2021, 1, 1, 1, 0⟩, [.na]), (⟨2021, 1, 1, 2, 0⟩, [.na]),
          (⟨2021, 1, 1, 3, 0⟩, [.na])]⟩ : NTable)], hasKey x ⟨2021, 1, 1, 1, 0⟩ = true)) ∧
    hasKey ⟨["A", "B"], [(⟨2021, 1, 1, 1, 0⟩, [.na, .na]),
        (⟨2021, 1, 1, 2, 0⟩, [.na, .na])]⟩ ⟨2021, 1, 1, 0, 0⟩ = false ∧
    hasKey ⟨["A", "B"], [(⟨2021, 1, 1, 1, 0⟩, [.na, .na]),
        (⟨2021, 1, 1, 2, 0⟩, [.na, .na])]⟩ ⟨2021, 1, 1, 3, 0⟩ = false := by
  refine ⟨by decide, ?_, by decide, by decide⟩
  exact (C2_merge_intersection _ [_] _ (by decide)).1 ⟨2021, 1, 1, 1, 0⟩

/-- Counterexample to C4 as stated: two normalized tables sharing the
column name `"X"` do not merge last-write-wins — `DataFrame.join` with no
suffixes raises a `ValueError` on overlapping columns, so the merge does
not complete at all. -/
theorem C4_counterexample :
    mergeAll ⟨["X"], [(⟨2021, 1, 1, 0, 0⟩, [.na])]⟩
        [⟨["X"], [(⟨2021, 1, 1, 0, 0⟩, [.na])]⟩] =
      .error (.valueError "columns overlap but no suffix specified") := by
  exact rfl

/-- C4 amended: whenever two consecutive inputs of the merge share a
column name, the merge loop raises the pandas overlap `ValueError`
instead of resolving the collision. -/
theorem C4_amended (a b : NTable) (rest : List NTable) (n : String)
    (h1 : n ∈ a.colNames) (h2 : n ∈ b.colNames) :
    mergeAll a (b :: rest) =
      .error (.valueError "columns overlap but no suffix specified") := by
  have hov : a.colNames.any (fun x => b.colNames.contains x) = true := by
    rw [List.any_eq_true]
    exact ⟨n, h1, List.elem_eq_true_of_mem h2⟩
  unfold mergeAll joinInner
  rw [hov]
  rfl

/-- Witness for the amended C4 at two concrete one-column tables. -/
theorem C4_amended_witness :
    mergeAll ⟨["Grid_Load"], []⟩ [⟨["Grid_Load"], [(⟨2021, 1, 1, 0, 0⟩, [.na])]⟩] =
      .error (.valueError "columns overlap but no suffix specified") :=
  C4_amended ⟨["Grid_Load"], []⟩ ⟨["Grid_Load"], [(⟨2021, 1, 1, 0, 0⟩, [.na])]⟩ []
    "Grid_Load" (by decide) (by decide)

/-! ### C9 and C5: the driver -/

lemma run_pipeline_eq (gen cons prices : LoadResult) (og oc op : Option NTable)
    (hg : (clean_smard_df genPath gen).2 = .ok og)
    (hc : (clean_smard_df consPath cons).2 = .ok oc)
    (hp : (clean_smard_df pricesPath prices).2 = .ok op) :
    run_pipeline gen cons prices =
      ((clean_smard_df genPath gen).1 ++ (clean_smard_df consPath cons).1 ++
        (clean_smard_df pricesPath prices).1 ++
        (mergePhase (og.toList ++ oc.toList ++ (op.map priceRename).toList)).1,
       (mergePhase (og.toList ++ oc.toList ++ (op.map priceRename).toList)).2) := by
  rcases hpg : clean_smard_df genPath gen with ⟨lg, rg⟩
  rcases hpc : clean_smard_df consPath cons with ⟨lc, rc⟩
  rcases hpp : clean_smard_df pricesPath prices with ⟨lp, rp⟩
  rw [hpg] at hg
  rw [hpc] at hc
  rw [hpp] at hp
  dsimp only at hg hc hp
  subst hg
  subst hc
  subst hp
  unfold run_pipeline
  rw [hpg, hpc, hpp]

/-- C9: a source whose read fails is reported — the loader prints the
processing line and an error line naming the file and returns the absent
marker — and the driver carries on: with the generation file failing, the
pipeline's outcome is exactly the merge phase over whatever the
consumption and prices sources contribute, generation contributing no
table at all, and the console log shows the error and the continued
processing of the remaining files. -/
theorem C9_load_failure_skipped :
    (∀ path msg, clean_smard_df path (.failure msg) =
      (["Processing " ++ path ++ "...",
        "Error reading " ++ path ++ ": " ++ msg], .ok none)) ∧
    (∀ (msg : String) (cons prices : LoadResult) (oc op : Option NTable),
      (clean_smard_df consPath cons).2 = .ok oc →
      (clean_smard_df pricesPath prices).2 = .ok op →
      run_pipeline (.failure msg) cons prices =
        (["Processing ../data/generation.csv...",
          "Error reading ../data/generation.csv: " ++ msg] ++
          (clean_smard_df consPath cons).1 ++
          (clean_smard_df pricesPath prices).1 ++
          (mergePhase (oc.toList ++ (op.map priceRename).toList)).1,
         (mergePhase (oc.toList ++ (op.map priceRename).toList)).2)) := by
  refine ⟨fun path msg => rfl, ?_⟩
  intro msg cons prices oc op hc hp
  have hg : (clean_smard_df genPath (.failure msg)).2 = .ok none := rfl
  rw [run_pipeline_eq (.failure msg) cons prices none oc op hg hc hp]
  rfl

/-- Witness for C9: generation fails, consumption loads, prices fails —
the run sorts and saves the consumption table alone, with the error
naming the generation file and processing continuing. -/
theorem C9_witness :
    run_pipeline (.failure "No such file")
        (.table ⟨["Start date", "Grid load"], [[.str "Jan 1, 2021 12:00 AM", .na]]⟩)
        (.failure "boom") =
      (["Processing ../data/generation.csv...",
        "Error reading ../data/generation.csv: No such file",
        "Processing ../data/consumption.csv...",
        "Processing ../data/prices.csv...",
        "Error reading ../data/prices.csv: boom",
        "Merging datasets...",
        "Saved master dataset to ../data/energy_dataset_master.csv"],
       .ok (some ⟨["Grid_Load"], [(⟨2021, 1, 1, 0, 0⟩, [.na])]⟩)) := by
  have h := C9_load_failure_skipped.2 "No such file"
    (.table ⟨["Start date", "Grid load"], [[.str "Jan 1, 2021 12:00 AM", .na]]⟩)
    (.failure "boom")
    (some ⟨["Grid_Load"], [(⟨2021, 1, 1, 0, 0⟩, [.na])]⟩) none rfl rfl
  rw [h]
  rfl

/-- Counterexample to C5 as stated: a generation file that loads but has
no recognized timestamp column crashes the whole run with an unhandled
`KeyError` — not every input combination is converted to recovery or a
clean early return. -/
theorem C5_counterexample :
    (run_pipeline (.table ⟨["foo"], [[.na]]⟩) (.failure "b") (.failure "c")).2 =
      .error (.keyError "timestamp") := by
  exact rfl

/-- Two tables with no column name in common. -/
def NamesDisjoint (a b : NTable) : Prop := ∀ n ∈ a.colNames, n ∉ b.colNames

lemma joinInner_ok_of_disjoint (a b : NTable) (h : NamesDisjoint a b) :
    ∃ j, joinInner a b = .ok j ∧ j.colNames = a.colNames ++ b.colNames := by
  have hov : (a.colNames.any (fun n => b.colNames.contains n)) = false := by
    rw [List.any_eq_false]
    intro n hn
    cases hc : b.colNames.contains n
    · simp
    · exact absurd (List.mem_of_elem_eq_true hc) (h n hn)
  refine ⟨⟨a.colNames ++ b.colNames, a.rows.flatMap (fun ra =>
    (b.rows.filter (fun rb => rb.1 == ra.1)).map
      (fun rb => (ra.1, ra.2 ++ rb.2)))⟩, ?_, rfl⟩
  unfold joinInner
  simp only [hov, Bool.false_eq_true, if_false]

lemma mergeAll_ok_of_pairwise :
    ∀ (ds : List NTable) (d : NTable), List.Pairwise NamesDisjoint (d :: ds) →
      ∃ m, mergeAll d ds = .ok m := by
  intro ds
  induction ds with
  | nil => exact fun d _ => ⟨d, rfl⟩
  | cons b bs ih =>
    intro d hpw
    rw [List.pairwise_cons] at hpw
    obtain ⟨j, hj, hjc⟩ := joinInner_ok_of_disjoint d b (hpw.1 b (by simp))
    have hpw2 : List.Pairwise NamesDisjoint (j :: bs) := by
      rw [List.pairwise_cons]
      refine ⟨?_, (List.pairwise_cons.mp hpw.2).2⟩
      intro x hx n hn
      rw [hjc] at hn
      rcases List.mem_append.mp hn with hnd | hnb
      · exact hpw.1 x (by simp [hx]) n hnd
      · exact (List.pairwise_cons.mp hpw.2).1 x hx n hnb
    obtain ⟨m, hm⟩ := ih j hpw2
    refine ⟨m, ?_⟩
    unfold mergeAll
    rw [hj]
    exact hm

/-- A source the pipeline survives: either its read fails (recovered with
a message), or it loads a table carrying a `'Start date'` column whose
canonical column names are collision-free. -/
def SourceOk (r : LoadResult) : Prop :=
  (∃ msg, r = .failure msg) ∨
  (∃ df : RawDF, r = .table df ∧ "Start date" ∈ df.headers ∧
    ((keptHeaders df.headers).map cleanName).Nodup)

lemma clean_ok_of_sourceOk (path : String) (r : LoadResult) (h : SourceOk r) :
    ∃ o, (clean_smard_df path r).2 = .ok o := by
  rcases h with ⟨msg, rfl⟩ | ⟨df, rfl, hsd, hnd⟩
  · exact ⟨none, rfl⟩
  · have hct : cleanTable df = .ok ⟨(keptHeaders df.headers).map cleanName,
        buildRows df.headers df.rows (df.rows.map (startTs df.headers))⟩ := by
      unfold cleanTable
      rw [if_pos hsd, if_pos hnd]
    refine ⟨some ⟨(keptHeaders df.headers).map cleanName,
      buildRows df.headers df.rows (df.rows.map (startTs df.headers))⟩, ?_⟩
    show (match cleanTable df with
      | .error e => Except.error e
      | .ok t => Except.ok (some t)) = _
    rw [hct]

/-- C5 amended: the four spec error kinds are indeed recovered or cleanly
returned — load failures are skipped, start-date rows that fail to parse
are dropped, bad cells become missing, and all-sources-failed prints
"No data processed." and returns with every failure logged.  The pipeline
is exception-free whenever every loaded source carries a `'Start date'`
column with collision-free canonical names and the collected normalized
tables are pairwise column-disjoint; outside those conditions an
exception can escape (see the counterexample: a loaded table with no
recognized timestamp column, or overlapping columns across tables). -/
theorem C5_no_unhandled_exception :
    (∀ (gen cons prices : LoadResult) (og oc op : Option NTable),
      (clean_smard_df genPath gen).2 = .ok og →
      (clean_smard_df consPath cons).2 = .ok oc →
      (clean_smard_df pricesPath prices).2 = .ok op →
      List.Pairwise NamesDisjoint
        (og.toList ++ oc.toList ++ (op.map priceRename).toList) →
      ∃ r, (run_pipeline gen cons prices).2 = .ok r) ∧
    (∀ (r : LoadResult) (path : String), SourceOk r →
      ∃ o, (clean_smard_df path r).2 = .ok o) ∧
    (∀ a b c, run_pipeline (.failure a) (.failure b) (.failure c) =
      (["Processing ../data/generation.csv...",
        "Error reading ../data/generation.csv: " ++ a,
        "Processing ../data/consumption.csv...",
        "Error reading ../data/consumption.csv: " ++ b,
        "Processing ../data/prices.csv...",
        "Error reading ../data/prices.csv: " ++ c,
        "No data processed."], .ok none)) := by
  refine ⟨?_, fun r path h => clean_ok_of_sourceOk path r h, fun a b c => rfl⟩
  intro gen cons prices og oc op hg hc hp hpw
  rw [run_pipeline_eq gen cons prices og oc op hg hc hp]
  dsimp only
  cases hdfs : og.toList ++ oc.toList ++ (op.map priceRename).toList with
  | nil =>
    exact ⟨none, rfl⟩
  | cons d ds =>
    rw [hdfs] at hpw
    obtain ⟨m, hm⟩ := mergeAll_ok_of_pairwise ds d hpw
    refine ⟨some (sortTable m), ?_⟩
    show (match mergeAll d ds with
      | Except.error e => (["Merging datasets..."], Except.error e)
      | Except.ok m2 =>
        (["Merging datasets...",
          "Saved master dataset to ../data/energy_dataset_master.csv"],
          Except.ok (some (sortTable m2)))).2 = Except.ok (some (sortTable m))
    rw [hm]

/-- Witness for the amended C5: generation loads a well-formed table,
the other two sources fail; the run ends in a written output, no
exception. -/
theorem C5_witness :
    ∃ r, (run_pipeline
      (.table ⟨["Start date", "Total [MWh] x"], [[.str "Jan 1, 2021 12:00 AM", .na]]⟩)
      (.failure "y") (.failure "z")).2 = .ok r :=
  C5_no_unhandled_exception.1
    (.table ⟨["Start date", "Total [MWh] x"], [[.str "Jan 1, 2021 12:00 AM", .na]]⟩)
    (.failure "y") (.failure "z")
    (some ⟨["Total"], [(⟨2021, 1, 1, 0, 0⟩, [.na])]⟩) none none
    rfl rfl rfl (by simp)
